import Mathlib

/-!
Verification of the multi-terminal session-orchestration core
(`skills/multi-terminal/scripts/terminal_session.py`).

The Python module drives an external terminal multiplexer (tmux) through
subprocess invocations.  This file shallowly embeds the module: each Python
method becomes a Lean function over explicit state, Python exceptions become
`Except PyError`, and the external multiplexer is modelled as an abstract
capability provider, following the specification, which treats it as an
external collaborator that is not reimplemented.
-/

namespace MultiTerminal

/-- The Python exceptions that the module can raise or encounter:
`ValueError` (usage errors raised by the module itself), and the
`subprocess` exceptions `FileNotFoundError` (missing executable) and
`TimeoutExpired` (command exceeded a requested timeout). -/
inductive PyError where
  | valueError (msg : String)
  | fileNotFoundError
  | timeoutExpired
  deriving DecidableEq, Repr

/-- Result of `subprocess.run(..., capture_output=True, text=True)`. -/
structure CompletedProcess where
  returncode : Int
  stdout : String
  stderr : String
  deriving DecidableEq, Repr

/-- Abstract behaviour of the host when a subprocess is spawned: whether the
`tmux` executable exists, the completed-process result each command line
produces, and how long (in seconds) the command takes to run. -/
structure ProcEnv where
  tmuxInstalled : Bool
  exec : List String → CompletedProcess
  duration : List String → ℚ

/-- `subprocess.run(cmd, capture_output=True, text=True, timeout=?)`:
raises `FileNotFoundError` when the executable is absent; when a `timeout`
keyword is supplied and the command runs longer, raises `TimeoutExpired`;
otherwise returns the completed process.  (The `capture_output`/`text`
keywords only shape how output is returned and are absorbed into `exec`.) -/
def subprocess_run (env : ProcEnv) (cmd : List String) (timeout : Option ℚ) :
    Except PyError CompletedProcess :=
  if env.tmuxInstalled then
    match timeout with
    | some t => if t < env.duration cmd then .error .timeoutExpired else .ok (env.exec cmd)
    | none => .ok (env.exec cmd)
  else .error .fileNotFoundError

/-- `TerminalSession._run_tmux`: builds `["tmux"] + args` and calls
`subprocess.run(cmd, capture_output=True, text=True)` — note: with no
`timeout` keyword and no exception handling.  (The `capture=False` variant
used by `attach` differs only in where output goes, not in control flow.) -/
def _run_tmux (env : ProcEnv) (args : List String) : Except PyError CompletedProcess :=
  subprocess_run env (["tmux"] ++ args) none

/-- A host with no `tmux` executable. -/
def noTmuxEnv : ProcEnv :=
  { tmuxInstalled := false, exec := fun _ => ⟨0, "", ""⟩, duration := fun _ => 0 }

/-- A host where `tmux` exists but every command takes an hour. -/
def slowTmuxEnv : ProcEnv :=
  { tmuxInstalled := true, exec := fun _ => ⟨0, "ok", ""⟩, duration := fun _ => 3600 }

/-- C1, counterexample: on a host with no multiplexer executable,
`_run_tmux` propagates `FileNotFoundError` to its caller instead of
returning a failure result with empty output. -/
theorem run_tmux_missing_executable_raises :
    _run_tmux noTmuxEnv ["has-session", "-t", "demo"] = .error .fileNotFoundError := rfl

/-- C1, amended: `_run_tmux` passes the command to the subprocess runner
with no timeout bound at all; whenever the executable is present it returns
the command's own completed process (exit status and captured output),
however long the command takes — `env.duration` is arbitrary here — and when
the executable is missing the `FileNotFoundError` reaches the caller. -/
theorem run_tmux_no_timeout_passthrough (env : ProcEnv) (args : List String)
    (hinst : env.tmuxInstalled = true) :
    _run_tmux env args = .ok (env.exec (["tmux"] ++ args)) := by
  simp [_run_tmux, subprocess_run, hinst]

/-- C1 witness: a command taking 3600 s on an installed host still completes
and returns its own result (no 10-second bound is applied). -/
theorem run_tmux_no_timeout_passthrough_witness :
    slowTmuxEnv.tmuxInstalled = true ∧
      _run_tmux slowTmuxEnv ["kill-server"] = .ok (slowTmuxEnv.exec ["tmux", "kill-server"]) :=
  ⟨rfl, run_tmux_no_timeout_passthrough slowTmuxEnv ["kill-server"] rfl⟩

/-! ## Association-list lookup (Python `dict` access by key) -/

/-- Lookup in an insertion-ordered association list; Python dictionaries keep
insertion order and have unique keys, so first-match lookup coincides with
`dict.__getitem__` / `in`. -/
def alookup {α : Type} : List (String × α) → String → Option α
  | [], _ => none
  | (k, v) :: rest, n => if k = n then some v else alookup rest n

theorem alookup_isSome_of_mem {α : Type} (n : String) :
    ∀ l : List (String × α), n ∈ l.map Prod.fst → ∃ v, alookup l n = some v := by
  intro l
  induction l with
  | nil => intro h; simp at h
  | cons kv rest ih =>
    intro h
    by_cases hk : kv.1 = n
    · exact ⟨kv.2, by simp [alookup, hk]⟩
    · have : n ∈ rest.map Prod.fst := by
        simp only [List.map_cons, List.mem_cons] at h
        exact h.resolve_left (fun he => hk he.symm)
      obtain ⟨v, hv⟩ := ih this
      exact ⟨v, by simp [alookup, hk, hv]⟩

theorem alookup_eq_none_of_not_mem {α : Type} (n : String) :
    ∀ l : List (String × α), n ∉ l.map Prod.fst → alookup l n = none := by
  intro l
  induction l with
  | nil => intro _; rfl
  | cons kv rest ih =>
    intro h
    simp only [List.map_cons, List.mem_cons] at h
    push_neg at h
    have hk : ¬ kv.1 = n := fun he => h.1 he.symm
    simp [alookup, hk, ih h.2]

theorem alookup_append_some {α : Type} (n : String) (v : α) :
    ∀ l l2 : List (String × α), alookup l n = some v → alookup (l ++ l2) n = some v := by
  intro l l2
  induction l with
  | nil => intro h; simp [alookup] at h
  | cons kv rest ih =>
    intro h
    by_cases hk : kv.1 = n
    · simp [alookup, hk] at h ⊢; exact h
    · simp [alookup, hk] at h ⊢; exact ih h

theorem alookup_append_none {α : Type} (n : String) :
    ∀ l l2 : List (String × α), alookup l n = none → alookup (l ++ l2) n = alookup l2 n := by
  intro l l2
  induction l with
  | nil => intro _; rfl
  | cons kv rest ih =>
    intro h
    by_cases hk : kv.1 = n
    · simp [alookup, hk] at h
    · simp [alookup, hk] at h ⊢; exact ih h

/-! ## Session handle (`TerminalSession.__init__` / `_ensure_session`) -/

/-- Modelled from the spec: the state of the external multiplexer server that
`terminal_session.py` manipulates but does not implement — the table of live
sessions, each bound to the working directory given at creation.  The spec
treats the multiplexer as an external capability provider with at most one
live session per name. -/
structure TmuxServer where
  sessions : List (String × String)
  deriving DecidableEq, Repr

/-- Modelled from the spec: the `has-session -t name` probe exits 0 exactly
when a session with that name is live. -/
def hasSessionCmd (srv : TmuxServer) (n : String) : Bool :=
  decide (n ∈ srv.sessions.map Prod.fst)

/-- Modelled from the spec: `new-session -d -s name -c dir` registers a new
detached session rooted at `dir`; creation of a duplicate name fails and
leaves the table unchanged (at most one live session per name). -/
def newSessionCmd (srv : TmuxServer) (n dir : String) : TmuxServer :=
  if hasSessionCmd srv n then srv else ⟨srv.sessions ++ [(n, dir)]⟩

/-- `TerminalSession._ensure_session`: probes `has-session -t name`; when the
probe reports a non-zero exit (no such session) it issues
`new-session -d -s name -c working_dir`; otherwise it does nothing.
(Path expansion of the working directory is abstracted to the identity: no
claim depends on path normalisation.) -/
def _ensure_session (srv : TmuxServer) (name working_dir : String) : TmuxServer :=
  if hasSessionCmd srv name then srv else newSessionCmd srv name working_dir

/-- C3: ensure-session is idempotent — a second call with the same name (even
with a different directory) is a no-op; afterwards exactly one live session
bears the name; and the working directory of an already existing session is
never updated (first-writer-wins), while a fresh session gets the first
caller's directory. -/
theorem ensure_session_idempotent_first_writer_wins
    (srv : TmuxServer) (n d d2 : String)
    (hcount : (srv.sessions.map Prod.fst).count n ≤ 1) :
    _ensure_session (_ensure_session srv n d) n d2 = _ensure_session srv n d ∧
    ((_ensure_session srv n d).sessions.map Prod.fst).count n = 1 ∧
    (∀ d0, alookup srv.sessions n = some d0 →
      alookup (_ensure_session srv n d).sessions n = some d0) ∧
    (alookup srv.sessions n = none →
      alookup (_ensure_session srv n d).sessions n = some d) := by
  by_cases hmem : n ∈ srv.sessions.map Prod.fst
  · have hhas : hasSessionCmd srv n = true := by simp [hasSessionCmd, hmem]
    have hid : _ensure_session srv n d = srv := by simp [_ensure_session, hhas]
    refine ⟨by rw [hid]; simp [_ensure_session, hhas], ?_, ?_, ?_⟩
    · rw [hid]
      have hpos : 0 < (srv.sessions.map Prod.fst).count n := List.count_pos_iff.mpr hmem
      omega
    · intro d0 h0; rw [hid]; exact h0
    · intro hnone
      obtain ⟨v, hv⟩ := alookup_isSome_of_mem n srv.sessions hmem
      rw [hnone] at hv; cases hv
  · have hhas : hasSessionCmd srv n = false := by simp [hasSessionCmd, hmem]
    have hstep : _ensure_session srv n d = ⟨srv.sessions ++ [(n, d)]⟩ := by
      simp [_ensure_session, newSessionCmd, hhas]
    have hmem2 : n ∈ ((⟨srv.sessions ++ [(n, d)]⟩ : TmuxServer).sessions.map Prod.fst) := by
      simp
    refine ⟨?_, ?_, ?_, ?_⟩
    · rw [hstep]
      simp [_ensure_session, hasSessionCmd, hmem2]
    · rw [hstep]
      have hzero : (srv.sessions.map Prod.fst).count n = 0 :=
        List.count_eq_zero.mpr hmem
      simp [List.count_append, hzero]
    · intro d0 h0
      rw [hstep]
      exact alookup_append_some n d0 srv.sessions [(n, d)] h0
    · intro hnone
      rw [hstep]
      rw [alookup_append_none n srv.sessions [(n, d)] hnone]
      simp [alookup]

/-- C3 witness: starting from a server holding one unrelated session, two
ensure-session calls for `work` leave exactly one `work` session rooted at
the first call's directory. -/
theorem ensure_session_idempotent_first_writer_wins_witness :
    _ensure_session (_ensure_session ⟨[("other", "/o")]⟩ "work" "/a") "work" "/b" =
        _ensure_session ⟨[("other", "/o")]⟩ "work" "/a" ∧
    ((_ensure_session ⟨[("other", "/o")]⟩ "work" "/a").sessions.map Prod.fst).count "work" = 1 ∧
    (∀ d0, alookup [("other", "/o")] "work" = some d0 →
      alookup (_ensure_session ⟨[("other", "/o")]⟩ "work" "/a").sessions "work" = some d0) ∧
    (alookup [("other", "/o")] "work" = none →
      alookup (_ensure_session ⟨[("other", "/o")]⟩ "work" "/a").sessions "work" = some "/a") :=
  ensure_session_idempotent_first_writer_wins ⟨[("other", "/o")]⟩ "work" "/a" "/b" (by decide)

/-! ## Window registry and key dispatcher -/

/-- The in-process state of a `TerminalSession` object: session name, resolved
working directory, and the ordered `windows` dict mapping logical window names
to multiplexer identifiers. -/
structure SessionState where
  name : String
  working_dir : String
  windows : List (String × String)
  deriving DecidableEq, Repr

/-- One invocation of the multiplexer control interface: the argument list
handed to `_run_tmux`. -/
abbrev Cmd := List String

/-- The `key_map` dict of `send_keys`, translating symbolic key names to the
multiplexer key syntax. -/
def key_map : List (String × String) :=
  [("Enter", "C-m"), ("Return", "C-m"), ("Tab", "Tab"), ("Space", "Space"),
   ("C-c", "C-c"), ("C-d", "C-d"), ("C-z", "C-z"), ("C-l", "C-l"), ("Escape", "Escape")]

/-- `TerminalSession.send_keys(window_name, keys, literal)`.  Returns the
trace of multiplexer invocations it issues together with its outcome:
`ValueError` for an unregistered window (empty trace — nothing is issued);
otherwise the symbolic-name substitution through `key_map` is applied first,
then either the per-character literal sends (space as the `Space` key,
newline as the `Enter` key) or one plain `send-keys` invocation.
(The source's error message quotes the window name; the quote characters are
omitted here.) -/
def send_keys (st : SessionState) (window_name keys : String) (literal : Bool) :
    List Cmd × Except PyError Unit :=
  match alookup st.windows window_name with
  | none => ([], .error (.valueError ("Window " ++ window_name ++ " not found")))
  | some window_id =>
    -- `if keys in key_map: keys = key_map[keys]` — reassignment modelled as keys2
    let keys2 := match alookup key_map keys with
      | some v => v
      | none => keys
    if literal then
      (keys2.data.map (fun c =>
        if c = ' ' then ["send-keys", "-t", window_id, "Space"]
        else if c = '\n' then ["send-keys", "-t", window_id, "Enter"]
        else ["send-keys", "-t", window_id, String.singleton c]), .ok ())
    else ([["send-keys", "-t", window_id, keys2]], .ok ())

/-- What the external multiplexer answers to queries made during
`add_window`: the stdout of `list-panes -t session -F pane_id-format` right
after a split. -/
structure TmuxEnv where
  listPanesOut : String

/-- `TerminalSession.add_window(name, command, split, split_direction,
working_dir)`.  Returns the updated registry state, the trace of multiplexer
invocations issued, and either the new window identifier or the raised
error.  A duplicate logical name raises `ValueError` before anything else
happens.  Directory path expansion is abstracted to the identity; an empty
`working_dir` string is falsy in Python and falls back to the session
directory. -/
def add_window (env : TmuxEnv) (st : SessionState) (name command : String)
    (split : Bool) (split_direction : String) (working_dir : Option String) :
    SessionState × List Cmd × Except PyError String :=
  if name ∈ st.windows.map Prod.fst then
    (st, [], .error (.valueError ("Window " ++ name ++ " already exists")))
  else
    let target_dir := match working_dir with
      | some d => if d = "" then st.working_dir else d
      | none => st.working_dir
    let creation : List Cmd × String :=
      if split ∧ st.windows ≠ [] then
        -- split the most recently added window
        let last_window := (st.windows.map Prod.snd).getLastD ""
        let split_flag := if split_direction = "vertical" then "-v" else "-h"
        let pane_id := ((env.listPanesOut.trim).splitOn "\n").getLastD ""
        ([["split-window", split_flag, "-t", last_window, "-c", target_dir],
          ["list-panes", "-t", st.name, "-F", "#{pane_id}"]],
         st.name ++ ":" ++ pane_id)
      else
        ([["new-window", "-t", st.name, "-n", name, "-c", target_dir]],
         st.name ++ ":" ++ name)
    let window_id := creation.2
    let st2 : SessionState := { st with windows := st.windows ++ [(name, window_id)] }
    if command ≠ "" then
      (st2,
       creation.1 ++ (send_keys st2 name command false).1 ++ (send_keys st2 name "Enter" false).1,
       .ok window_id)
    else
      (st2, creation.1, .ok window_id)

/-- C2: adding a window under an already-registered logical name raises the
duplicate-name `ValueError` synchronously, with the registry state returned
unchanged and an empty invocation trace — no multiplexer command is issued
and no registry entry is added or modified. -/
theorem add_window_duplicate_name_rejected (env : TmuxEnv) (st : SessionState)
    (name command : String) (split : Bool) (split_direction : String)
    (working_dir : Option String) (h : name ∈ st.windows.map Prod.fst) :
    add_window env st name command split split_direction working_dir =
      (st, [], .error (.valueError ("Window " ++ name ++ " already exists"))) := by
  simp [add_window, h]

/-- C2 witness: re-adding the registered window `server` is rejected with the
duplicate-name error, leaving state and trace empty-handed. -/
theorem add_window_duplicate_name_rejected_witness :
    add_window ⟨""⟩ ⟨"s", "/p", [("server", "s:server")]⟩ "server" "npm start" false
        "vertical" none =
      (⟨"s", "/p", [("server", "s:server")]⟩, [],
        .error (.valueError ("Window " ++ "server" ++ " already exists"))) :=
  add_window_duplicate_name_rejected ⟨""⟩ ⟨"s", "/p", [("server", "s:server")]⟩
    "server" "npm start" false "vertical" none (by simp)

/-- A concrete one-window session used to evaluate the key dispatcher. -/
def demoSession : SessionState := { name := "s", working_dir := ".", windows := [("w", "s:w")] }

/-- C6, failing input: `send_keys("w", "Enter", literal=True)`.  The docstring
promises that literal mode sends without interpreting special keys, yet the
`key_map` substitution runs before the literal branch, so the code first
rewrites `Enter` to `C-m` and then sends the three characters `C`, `-`, `m`
as individual keystrokes — not the characters of `keys`. -/
theorem send_keys_literal_enter_interprets_special_key :
    send_keys demoSession "w" "Enter" true =
      ([["send-keys", "-t", "s:w", "C"], ["send-keys", "-t", "s:w", "-"],
        ["send-keys", "-t", "s:w", "m"]], .ok ()) := rfl

/-! ## Output observer: capture, pattern wait -/

/-- Case matched at the head of a character sequence. -/
def seqStarts : List Char → List Char → Bool
  | [], _ => true
  | _ :: _, [] => false
  | a :: as, b :: bs => (a == b) && seqStarts as bs

/-- Occurrence of a character sequence anywhere inside another. -/
def seqOccurs (p : List Char) : List Char → Bool
  | [] => seqStarts p []
  | c :: rest => seqStarts p (c :: rest) || seqOccurs p rest

/-- ASCII lowering, as `Char.toLower` / Python `re.IGNORECASE` folding. -/
def charLower (c : Char) : Char := c.toLower

/-- Models `re.search(pattern, text, re.IGNORECASE) is not None` for patterns
free of regex metacharacters (the module's readiness and error patterns are
plain words): such a pattern matches exactly when it occurs as a substring of
the text, compared case-insensitively. -/
def regexSearchCI (pattern text : String) : Bool :=
  seqOccurs (pattern.data.map charLower) (text.data.map charLower)

/-- Number of poll iterations `wait_for_pattern` performs when the pattern
never matches: the loop body runs for every k with k·interval < timeout
(captures are idealized as instantaneous), i.e. ⌈timeout/interval⌉ times. -/
def pollCount (timeout : ℤ) (interval : ℚ) : ℕ := ⌈(timeout : ℚ) / interval⌉₊

/-- The polling loop of `wait_for_pattern`, with the successive capture
results supplied by `snaps`: iteration k matches the compiled
case-insensitive regex against the entire capture `snaps k` and returns
`True` on a hit; after the allotted iterations it falls through to `False`. -/
def waitLoop (snaps : ℕ → String) (pattern : String) : ℕ → Bool
  | 0 => false
  | n + 1 =>
    if regexSearchCI pattern (snaps 0) then true
    else waitLoop (fun k => snaps (k + 1)) pattern n

/-- `TerminalSession.wait_for_pattern(window_name, pattern, timeout,
interval)`: raises `ValueError` for an unregistered window; otherwise polls
`capture_output(window_name)` — whose successive results are the environment
`snaps` — until the pattern matches or the timeout elapses, returning whether
it matched.  Timeout expiry is the regular result `False`. -/
def wait_for_pattern (st : SessionState) (snaps : ℕ → String) (window_name pattern : String)
    (timeout : ℤ) (interval : ℚ) : Except PyError Bool :=
  match alookup st.windows window_name with
  | none => .error (.valueError ("Window " ++ window_name ++ " not found"))
  | some _ => .ok (waitLoop snaps pattern (pollCount timeout interval))

theorem waitLoop_eq_true_iff (pattern : String) :
    ∀ (n : ℕ) (snaps : ℕ → String),
      waitLoop snaps pattern n = true ↔ ∃ k < n, regexSearchCI pattern (snaps k) = true := by
  intro n
  induction n with
  | zero => intro snaps; simp [waitLoop]
  | succ m ih =>
    intro snaps
    by_cases h0 : regexSearchCI pattern (snaps 0) = true
    · constructor
      · intro _; exact ⟨0, Nat.succ_pos m, h0⟩
      · intro _; simp [waitLoop, h0]
    · rw [waitLoop, if_neg h0, ih]
      constructor
      · rintro ⟨k, hk, hmatch⟩
        exact ⟨k + 1, Nat.succ_lt_succ hk, hmatch⟩
      · rintro ⟨k, hk, hmatch⟩
        cases k with
        | zero => exact absurd hmatch h0
        | succ j => exact ⟨j, Nat.lt_of_succ_lt_succ hk, hmatch⟩

theorem lt_pollCount_iff (timeout : ℤ) (interval : ℚ) (hi : 0 < interval) (k : ℕ) :
    k < pollCount timeout interval ↔ (k : ℚ) * interval < (timeout : ℚ) := by
  rw [pollCount, Nat.lt_ceil, lt_div_iff₀ hi]

/-- C4: for a registered window, `wait_for_pattern` never raises (it yields a
plain boolean), and it returns `True` exactly when the case-insensitive
regex matches the entire captured window in some poll taken while
k·interval < timeout — i.e. in some capture taken within the timeout window;
expiry of the timeout yields the regular result `False`. -/
theorem wait_for_pattern_iff_capture_matches (st : SessionState) (snaps : ℕ → String)
    (window_name pattern : String) (timeout : ℤ) (interval : ℚ)
    (hw : window_name ∈ st.windows.map Prod.fst) (hi : 0 < interval) :
    (∃ b, wait_for_pattern st snaps window_name pattern timeout interval = .ok b) ∧
    (wait_for_pattern st snaps window_name pattern timeout interval = .ok true ↔
      ∃ k : ℕ, (k : ℚ) * interval < (timeout : ℚ) ∧
        regexSearchCI pattern (snaps k) = true) := by
  obtain ⟨wid, hwid⟩ := alookup_isSome_of_mem window_name st.windows hw
  constructor
  · exact ⟨waitLoop snaps pattern (pollCount timeout interval), by simp [wait_for_pattern, hwid]⟩
  · simp only [wait_for_pattern, hwid, Except.ok.injEq]
    rw [waitLoop_eq_true_iff]
    constructor
    · rintro ⟨k, hk, hmatch⟩
      exact ⟨k, (lt_pollCount_iff timeout interval hi k).mp hk, hmatch⟩
    · rintro ⟨k, hk, hmatch⟩
      exact ⟨k, (lt_pollCount_iff timeout interval hi k).mpr hk, hmatch⟩

/-- Capture trace where the server reports readiness from the second poll on. -/
def readySnaps : ℕ → String := fun k => if k = 0 then "booting" else "Server READY"

/-- C4 witness: polling window `w` for `ready` with timeout 2 and interval 1
yields a boolean, and yields `True` exactly when some poll inside the window
matched — here poll 1 does. -/
theorem wait_for_pattern_iff_capture_matches_witness :
    (∃ b, wait_for_pattern demoSession readySnaps "w" "ready" 2 1 = .ok b) ∧
    (wait_for_pattern demoSession readySnaps "w" "ready" 2 1 = .ok true ↔
      ∃ k : ℕ, (k : ℚ) * 1 < ((2 : ℤ) : ℚ) ∧ regexSearchCI "ready" (readySnaps k) = true) :=
  wait_for_pattern_iff_capture_matches demoSession readySnaps "w" "ready" 2 1
    (by simp [demoSession]) (by norm_num)

/-- The scroll-back contents the multiplexer holds for each window
identifier, as lines. -/
abbrev PaneEnv := String → List String

/-- Modelled from the spec: `capture-pane -t id -S -lines -p` renders the
last `lines` lines of the window scroll-back as plain text; the spec's
observer contract is that capture returns the last `lines` of scroll-back
and the glossary has scroll-back queryable up to a bounded number of lines. -/
def capturePaneCmd (pane : List String) (lines : ℕ) : List String :=
  pane.drop (pane.length - lines)

/-- `TerminalSession.capture_output(window_name, lines)`: raises `ValueError`
for an unregistered window, otherwise returns the text the multiplexer
renders for `capture-pane -S -lines -p` — the captured lines joined by
newlines — unmodified. -/
def capture_output (env : PaneEnv) (st : SessionState) (window_name : String) (lines : ℕ) :
    Except PyError String :=
  match alookup st.windows window_name with
  | none => .error (.valueError ("Window " ++ window_name ++ " not found"))
  | some window_id => .ok (String.intercalate "\n" (capturePaneCmd (env window_id) lines))

/-- C5: for a registered window and any requested count L, the capture result
is the newline-join of at most L lines of content. -/
theorem capture_output_line_bound (env : PaneEnv) (st : SessionState)
    (window_name : String) (L : ℕ) (hw : window_name ∈ st.windows.map Prod.fst) :
    ∃ content : List String, content.length ≤ L ∧
      capture_output env st window_name L = .ok (String.intercalate "\n" content) := by
  obtain ⟨wid, hwid⟩ := alookup_isSome_of_mem window_name st.windows hw
  refine ⟨capturePaneCmd (env wid) L, ?_, by simp [capture_output, hwid]⟩
  simp only [capturePaneCmd, List.length_drop]
  omega

/-- A five-line scroll-back for every window. -/
def fiveLinePanes : PaneEnv := fun _ => ["l1", "l2", "l3", "l4", "l5"]

/-- C5 witness: capturing window `w` with L = 2 returns the join of at most
two lines. -/
theorem capture_output_line_bound_witness :
    ∃ content : List String, content.length ≤ 2 ∧
      capture_output fiveLinePanes demoSession "w" 2 = .ok (String.intercalate "\n" content) :=
  capture_output_line_bound fiveLinePanes demoSession "w" 2 (by simp [demoSession])

/-! ## Output observer: `stream_output`

The generator keeps `last_output`, the previous capture, and on each tick
captures up to 1000 lines; when the capture changed it splits both captures
into lines, yields the nonempty lines of the current capture past the
previous line count (`current_lines[len(last_lines):]`), and remembers the
capture.  Captures are modelled as the lists of lines they split into; the
initial `last_output = ""` splits to the empty list through the source's
`last_output.split("\n") if last_output else []` guard. -/

/-- One iteration of the `stream_output` polling loop: compare the fresh
capture against the previous one; when unchanged yield nothing, otherwise
yield the nonempty lines past the previous capture's length (the naive
tail diff) and remember the capture. -/
def streamStep (last current : List String) : List String × List String :=
  if current = last then ([], last)
  else ((current.drop last.length).filter (fun l => l != ""), current)

/-- Finitely many iterations of the `stream_output` loop over the given
capture trace (a bounded observation of the infinite generator), collecting
every yielded line in order. -/
def streamRun : List (List String) → List String → List String
  | [], _ => []
  | c :: rest, last => (streamStep last c).1 ++ streamRun rest (streamStep last c).2

theorem le_foldl_max (l : List ℕ) : ∀ a : ℕ, a ≤ l.foldl max a := by
  induction l with
  | nil => intro a; exact le_refl a
  | cons b rest ih =>
    intro a
    exact le_trans (le_max_left a b) (ih (max a b))

theorem drop_take_append {α : Type} (u : List α) (a b : ℕ) (hab : a ≤ b) :
    (u.take b).drop a ++ u.drop b = u.drop a := by
  conv_rhs => rw [← List.take_append_drop b u]
  rw [List.drop_append_eq_append_drop]
  by_cases hcase : a ≤ (u.take b).length
  · rw [Nat.sub_eq_zero_of_le hcase, List.drop_zero]
  · have hlen : u.length < a := by
      simp only [List.length_take] at hcase
      omega
    have h1 : u.drop b = [] := List.drop_eq_nil_of_le (by omega)
    rw [h1]
    simp

theorem streamStep_take (ls : List String) (hne : ∀ l ∈ ls, l ≠ "") (a b : ℕ)
    (hab : a ≤ b) (hb : b ≤ ls.length) :
    streamStep (ls.take a) (ls.take b) = ((ls.take b).drop a, ls.take b) := by
  have hla : (ls.take a).length = a := List.length_take_of_le (le_trans hab hb)
  by_cases heq : ls.take b = ls.take a
  · have hlb : (ls.take b).length = b := List.length_take_of_le hb
    have hab2 : a = b := by rw [heq] at hlb; omega
    subst hab2
    rw [streamStep, if_pos heq, heq]
    have : (ls.take a).drop a = [] := List.drop_eq_nil_of_le (by omega)
    rw [this]
  · rw [streamStep, if_neg heq, hla]
    have hfilter : ((ls.take b).drop a).filter (fun l => l != "") = (ls.take b).drop a := by
      rw [List.filter_eq_self]
      intro x hx
      have hxls : x ∈ ls := List.take_subset b ls (List.mem_of_mem_drop hx)
      simpa using hne x hxls
    rw [hfilter]

theorem streamRun_takes (ls : List String) (hne : ∀ l ∈ ls, l ≠ "") :
    ∀ (ks : List ℕ) (a : ℕ), a ≤ ls.length → (∀ k ∈ ks, k ≤ ls.length) →
      List.Chain' (· ≤ ·) (a :: ks) →
      streamRun (ks.map (fun k => ls.take k)) (ls.take a) =
        (ls.take (ks.foldl max a)).drop a := by
  intro ks
  induction ks with
  | nil =>
    intro a ha _ _
    simp only [List.map_nil, streamRun, List.foldl_nil]
    exact (List.drop_eq_nil_of_le (List.length_take_le a ls)).symm
  | cons b rest ih =>
    intro a ha hk hchain
    have hab : a ≤ b := List.chain'_cons.mp hchain |>.1
    have hchain2 : List.Chain' (· ≤ ·) (b :: rest) := List.chain'_cons.mp hchain |>.2
    have hbl : b ≤ ls.length := hk b (List.mem_cons_self b rest)
    have hstep := streamStep_take ls hne a b hab hbl
    simp only [List.map_cons, streamRun, hstep]
    have hrest : ∀ k ∈ rest, k ≤ ls.length := fun k hk2 => hk k (List.mem_cons_of_mem b hk2)
    rw [ih b hbl hrest hchain2]
    have hfold : (b :: rest).foldl max a = rest.foldl max b := by
      simp [List.foldl_cons, max_eq_right hab]
    rw [hfold]
    have hbM : b ≤ rest.foldl max b := le_foldl_max rest b
    have htake : (ls.take (rest.foldl max b)).take b = ls.take b := by
      rw [List.take_take, min_eq_left hbM]
    calc (ls.take b).drop a ++ (ls.take (rest.foldl max b)).drop b
        = ((ls.take (rest.foldl max b)).take b).drop a ++ (ls.take (rest.foldl max b)).drop b := by
          rw [htake]
      _ = (ls.take (rest.foldl max b)).drop a :=
          drop_take_append (ls.take (rest.foldl max b)) a b hab

/-- C7: over a window whose monitored process emits the nonempty lines `ls`
in order — observed through any nondecreasing schedule of prefix captures
`ks` that eventually shows all of `ls` (scroll-back capacity exceeds the
emitted lines, so captures only grow at the tail) — the stream yields
exactly `ls`, in order, with no duplicates; and whenever a capture shrinks
(or is reordered without growing, so its line count does not exceed the
previous one), that iteration silently yields no lines at all. -/
theorem stream_output_yields_new_lines_in_order :
    (∀ (ls : List String) (ks : List ℕ),
      (∀ l ∈ ls, l ≠ "") → (∀ k ∈ ks, k ≤ ls.length) →
      List.Chain' (· ≤ ·) (0 :: ks) → ks.foldl max 0 = ls.length →
      streamRun (ks.map (fun k => ls.take k)) [] = ls) ∧
    (∀ last current : List String, current.length ≤ last.length →
      (streamStep last current).1 = []) := by
  constructor
  · intro ls ks hne hk hchain hfold
    have h0 : (ls.take 0) = [] := rfl
    have := streamRun_takes ls hne ks 0 (Nat.zero_le _) hk hchain
    rw [h0, hfold] at this
    simpa using this
  · intro last current hlen
    rw [streamStep]
    by_cases heq : current = last
    · rw [if_pos heq]
    · rw [if_neg heq]
      simp only
      rw [List.drop_eq_nil_of_le hlen, List.filter_nil]

/-- C7 witness: the capture schedule `[1, 1, 2, 3]` over the emitted lines
`L1, L2, L3` yields exactly those three lines in order, and a shrinking
capture yields nothing. -/
theorem stream_output_yields_new_lines_in_order_witness :
    streamRun ([1, 1, 2, 3].map (fun k => ["L1", "L2", "L3"].take k)) [] = ["L1", "L2", "L3"] ∧
    (streamStep ["L1", "L2"] ["L2"]).1 = [] :=
  ⟨stream_output_yields_new_lines_in_order.1 ["L1", "L2", "L3"] [1, 1, 2, 3]
      (by decide) (by decide) (by simp [List.chain'_cons]) (by decide),
    stream_output_yields_new_lines_in_order.2 ["L1", "L2"] ["L2"] (by decide)⟩

/-! ## Multi-service orchestrator -/

/-- One entry of `MultiServiceOrchestrator.services`: the launch command, the
window identifier returned by `add_window`, the optional readiness pattern,
and the readiness flag. -/
structure Service where
  command : String
  window_id : String
  ready_pattern : Option String
  ready : Bool
  deriving DecidableEq, Repr

/-- The orchestrator's state: the underlying `TerminalSession` and the
ordered `services` dict. -/
structure OrchState where
  session : SessionState
  services : List (String × Service)
  deriving DecidableEq, Repr

/-- Python truthiness of the stored `ready_pattern`: `None` and the empty
string are falsy. -/
def truthy : Option String → Bool
  | none => false
  | some s => s != ""

/-- In-place overwrite of every entry keyed `k` (there is at most one in a
dict) with the value `v`, keeping positions. -/
def overwrite (k : String) (v : Service) : List (String × Service) → List (String × Service)
  | [] => []
  | (k1, v1) :: rest =>
    if k1 = k then (k, v) :: overwrite k v rest else (k1, v1) :: overwrite k v rest

/-- Python dict assignment `d[k] = v`: overwrite in place when the key
exists (keeping its position), else append. -/
def dictInsert (l : List (String × Service)) (k : String) (v : Service) :
    List (String × Service) :=
  if k ∈ l.map Prod.fst then overwrite k v l else l ++ [(k, v)]

theorem alookup_overwrite_self (k : String) (v : Service) :
    ∀ l : List (String × Service), k ∈ l.map Prod.fst →
      alookup (overwrite k v l) k = some v := by
  intro l
  induction l with
  | nil => intro h; simp at h
  | cons kv rest ih =>
    obtain ⟨k1, v1⟩ := kv
    intro hmem
    by_cases hk : k1 = k
    · subst hk
      simp only [overwrite, if_pos rfl]
      simp [alookup]
    · have hmem2 : k ∈ rest.map Prod.fst := by
        simp only [List.map_cons, List.mem_cons] at hmem
        exact hmem.resolve_left (fun he => hk he.symm)
      simp only [overwrite]
      rw [if_neg hk]
      simp only [alookup]
      rw [if_neg hk]
      exact ih hmem2

theorem alookup_overwrite_ne (k k2 : String) (v : Service) (hne : k ≠ k2) :
    ∀ l : List (String × Service), alookup (overwrite k v l) k2 = alookup l k2 := by
  intro l
  induction l with
  | nil => rfl
  | cons kv rest ih =>
    obtain ⟨k1, v1⟩ := kv
    by_cases hk : k1 = k
    · subst hk
      have hov : overwrite k1 v ((k1, v1) :: rest) = (k1, v) :: overwrite k1 v rest := by
        simp [overwrite]
      rw [hov]
      simp only [alookup]
      rw [if_neg hne, if_neg hne]
      exact ih
    · simp only [overwrite]
      rw [if_neg hk]
      simp only [alookup]
      by_cases hk2 : k1 = k2
      · rw [if_pos hk2, if_pos hk2]
      · rw [if_neg hk2, if_neg hk2]
        exact ih

theorem alookup_dictInsert_self (l : List (String × Service)) (k : String) (v : Service) :
    alookup (dictInsert l k v) k = some v := by
  rw [dictInsert]
  by_cases hmem : k ∈ l.map Prod.fst
  · rw [if_pos hmem]
    exact alookup_overwrite_self k v l hmem
  · rw [if_neg hmem]
    rw [alookup_append_none k l [(k, v)] (alookup_eq_none_of_not_mem k l hmem)]
    simp [alookup]

theorem alookup_dictInsert_ne (l : List (String × Service)) (k k2 : String) (v : Service)
    (hne : k ≠ k2) : alookup (dictInsert l k v) k2 = alookup l k2 := by
  rw [dictInsert]
  by_cases hmem : k ∈ l.map Prod.fst
  · rw [if_pos hmem]
    exact alookup_overwrite_ne k k2 v hne l
  · rw [if_neg hmem]
    cases h2 : alookup l k2 with
    | some v2 => exact alookup_append_some k2 v2 l [(k, v)] h2
    | none =>
      rw [alookup_append_none k2 l [(k, v)] h2]
      simp [alookup, fun he => hne he]

/-- `MultiServiceOrchestrator.add_service(name, command, working_dir,
ready_pattern)`: registers the window via `add_window` (launching the
command immediately) and records the orchestration metadata with the
readiness flag initialised to `False`.  When `add_window` raises, the
exception propagates and `services` is untouched. -/
def add_service (env : TmuxEnv) (st : OrchState) (name command : String)
    (working_dir ready_pattern : Option String) :
    OrchState × List Cmd × Except PyError Unit :=
  match add_window env st.session name command false "vertical" working_dir with
  | (sess2, trace, .ok window_id) =>
    ({ session := sess2,
       services := dictInsert st.services name ⟨command, window_id, ready_pattern, false⟩ },
     trace, .ok ())
  | (sess2, trace, .error e) => ({ st with session := sess2 }, trace, .error e)

/-- `MultiServiceOrchestrator.start_all(stagger)`: every service already
started at registration, so the loop only sleeps `stagger` seconds per
service — the state is unchanged. -/
def start_all (st : OrchState) (_stagger : ℚ) : OrchState :=
  st

/-- The loop body of `wait_for_ready` over the service entries: for each
service with a truthy `ready_pattern`, run the session pattern wait with the
per-service timeout (and the default 0.5 s interval); on success set the
entry's flag and collect its name.  A raised `ValueError` propagates,
leaving the remaining entries untouched (entries already processed keep
their upgraded flags, as the Python dicts were mutated in place). -/
def waitReadyGo (sess : SessionState) (snaps : String → ℕ → String) (timeout : ℤ) :
    List (String × Service) → List (String × Service) × List String × Option PyError
  | [] => ([], [], none)
  | (n, svc) :: rest =>
    if truthy svc.ready_pattern then
      match wait_for_pattern sess (snaps n) n (svc.ready_pattern.getD "") timeout (2⁻¹ : ℚ) with
      | .error e => ((n, svc) :: rest, [], some e)
      | .ok true =>
        let r := waitReadyGo sess snaps timeout rest
        ((n, { svc with ready := true }) :: r.1, n :: r.2.1, r.2.2)
      | .ok false =>
        let r := waitReadyGo sess snaps timeout rest
        ((n, svc) :: r.1, r.2.1, r.2.2)
    else
      let r := waitReadyGo sess snaps timeout rest
      ((n, svc) :: r.1, r.2.1, r.2.2)

/-- `MultiServiceOrchestrator.wait_for_ready(timeout_per_service)`: iterates
the services, waiting on each registered readiness pattern, and returns the
list of names that became ready (or the propagated exception). -/
def wait_for_ready (snaps : String → ℕ → String) (st : OrchState)
    (timeout_per_service : ℤ) : OrchState × Except PyError (List String) :=
  let r := waitReadyGo st.session snaps timeout_per_service st.services
  ({ st with services := r.1 },
   match r.2.2 with
   | some e => .error e
   | none => .ok r.2.1)

/-- The default `monitor_logs` patterns. -/
def defaultPatterns : List String := ["ERROR", "FATAL", "CRASH", "Exception"]

/-- The nested loops of `monitor_logs` for one service: for each pattern, for
each captured line, append the line when the case-insensitive search hits. -/
def matchLines (pats lines : List String) : List String :=
  pats.foldl
    (fun acc p =>
      lines.foldl (fun acc2 line => if regexSearchCI p line then acc2 ++ [line] else acc2) acc)
    []

/-- The per-service loop of `monitor_logs`: capture the last 100 lines of
each service window and scan them. -/
def monitorGo (env : PaneEnv) (sess : SessionState) (pats : List String) :
    List (String × Service) → Except PyError (List (String × List String))
  | [] => .ok []
  | (n, _) :: rest =>
    match capture_output env sess n 100 with
    | .error e => .error e
    | .ok output =>
      match monitorGo env sess pats rest with
      | .error e => .error e
      | .ok ms => .ok ((n, matchLines pats (output.splitOn "\n")) :: ms)

/-- `MultiServiceOrchestrator.monitor_logs(patterns)`: defaults the pattern
list, then returns, per service, every captured line matching any pattern —
pattern-major, line order within a pattern. -/
def monitor_logs (env : PaneEnv) (st : OrchState) (patterns : Option (List String)) :
    Except PyError (List (String × List String)) :=
  monitorGo env st.session (patterns.getD defaultPatterns) st.services

/-- The graceful phase of `shutdown_all`: send the interrupt key to every
service in turn; a `ValueError` from an unregistered window propagates. -/
def sendInterrupts (sess : SessionState) : List (String × Service) → Option PyError
  | [] => none
  | (n, _) :: rest =>
    match (send_keys sess n "C-c" false).2 with
    | .error e => some e
    | .ok _ => sendInterrupts sess rest

/-- `MultiServiceOrchestrator.shutdown_all(graceful)`: optionally broadcast
interrupts, then `kill-session`, which clears the window registry; the
`services` dict (and its readiness flags) is left as is. -/
def shutdown_all (st : OrchState) (graceful : Bool) : OrchState × Except PyError Unit :=
  if graceful then
    match sendInterrupts st.session st.services with
    | some e => (st, .error e)
    | none => ({ st with session := { st.session with windows := [] } }, .ok ())
  else ({ st with session := { st.session with windows := [] } }, .ok ())

theorem waitReadyGo_ok (sess : SessionState) (snaps : String → ℕ → String) (t : ℤ) :
    ∀ svcs : List (String × Service),
      (∀ p ∈ svcs, p.1 ∈ sess.windows.map Prod.fst) →
      waitReadyGo sess snaps t svcs =
        (svcs.map (fun p =>
           if truthy p.2.ready_pattern &&
               waitLoop (snaps p.1) (p.2.ready_pattern.getD "") (pollCount t (2⁻¹ : ℚ))
           then (p.1, { p.2 with ready := true }) else p),
         (svcs.filter (fun p => truthy p.2.ready_pattern &&
             waitLoop (snaps p.1) (p.2.ready_pattern.getD "") (pollCount t (2⁻¹ : ℚ)))).map
           Prod.fst,
         none) := by
  intro svcs
  induction svcs with
  | nil => intro _; rfl
  | cons hd rest ih =>
    obtain ⟨n, svc⟩ := hd
    intro hreg
    obtain ⟨wid, hwid⟩ :=
      alookup_isSome_of_mem n sess.windows (hreg (n, svc) (List.mem_cons_self _ _))
    have hwp : wait_for_pattern sess (snaps n) n (svc.ready_pattern.getD "") t (2⁻¹ : ℚ) =
        .ok (waitLoop (snaps n) (svc.ready_pattern.getD "") (pollCount t (2⁻¹ : ℚ))) := by
      simp [wait_for_pattern, hwid]
    have hrest : ∀ p ∈ rest, p.1 ∈ sess.windows.map Prod.fst :=
      fun p hp => hreg p (List.mem_cons_of_mem _ hp)
    by_cases htru : truthy svc.ready_pattern = true
    · cases hb : waitLoop (snaps n) (svc.ready_pattern.getD "") (pollCount t (2⁻¹ : ℚ)) with
      | true =>
        simp only [waitReadyGo]
        rw [if_pos htru, hwp, hb]
        simp [htru, hb, List.filter_cons, ih hrest]
      | false =>
        simp only [waitReadyGo]
        rw [if_pos htru, hwp, hb]
        simp [htru, hb, List.filter_cons, ih hrest]
    · have htru2 : truthy svc.ready_pattern = false := by
        cases h : truthy svc.ready_pattern
        · rfl
        · exact absurd h htru
      simp only [waitReadyGo]
      rw [if_neg htru]
      simp [htru2, List.filter_cons, ih hrest]

/-- C8: with every service window registered (the invariant `add_service`
maintains) and distinct service names, `wait_for_ready` returns normally,
and its result is exactly the list of names of the services that carry a
truthy readiness pattern and whose pattern wait succeeded within the
per-service timeout (polled at the default 0.5 s interval); consequently a
service registered without a readiness pattern never appears in the result,
and a service whose pattern never matched is merely omitted, not an error. -/
theorem wait_for_ready_exactly_matching_services (snaps : String → ℕ → String)
    (st : OrchState) (t : ℤ)
    (hreg : ∀ p ∈ st.services, p.1 ∈ st.session.windows.map Prod.fst)
    (hnodup : (st.services.map Prod.fst).Nodup) :
    (∃ st2, wait_for_ready snaps st t =
      (st2, .ok ((st.services.filter (fun p => truthy p.2.ready_pattern &&
          waitLoop (snaps p.1) (p.2.ready_pattern.getD "") (pollCount t (2⁻¹ : ℚ)))).map
        Prod.fst))) ∧
    (∀ p ∈ st.services, truthy p.2.ready_pattern = false →
      p.1 ∉ ((st.services.filter (fun p => truthy p.2.ready_pattern &&
          waitLoop (snaps p.1) (p.2.ready_pattern.getD "") (pollCount t (2⁻¹ : ℚ)))).map
        Prod.fst)) := by
  have hgo := waitReadyGo_ok st.session snaps t st.services hreg
  constructor
  · refine ⟨{ st with services := (waitReadyGo st.session snaps t st.services).1 }, ?_⟩
    rw [wait_for_ready]
    rw [hgo]
  · intro p hp hfalse hmem
    obtain ⟨q, hq, hqfst⟩ := List.mem_map.mp hmem
    obtain ⟨hqmem, hqpred⟩ := List.mem_filter.mp hq
    have hqp : q = p := List.inj_on_of_nodup_map hnodup hqmem hp hqfst
    rw [hqp] at hqpred
    rw [hfalse] at hqpred
    simp at hqpred

/-- A service registry for the witness: `api` has a matching pattern, `db`
has a pattern that never appears, `worker` has none. -/
def witnessOrch : OrchState :=
  { session := { name := "s", working_dir := ".",
                 windows := [("api", "s:api"), ("db", "s:db"), ("worker", "s:worker")] },
    services := [("api", ⟨"run-api", "s:api", some "READY", false⟩),
                 ("db", ⟨"run-db", "s:db", some "UP", false⟩),
                 ("worker", ⟨"run-worker", "s:worker", none, false⟩)] }

/-- Per-service capture traces for the witness: `api` prints `ready`, the
others never print their patterns. -/
def witnessSnaps : String → ℕ → String := fun n _ =>
  if n = "api" then "api ready" else "still starting"

/-- C8 witness: on the concrete registry, `wait_for_ready` returns normally
with exactly the matching-pattern services, and the patternless `worker` is
not in the result. -/
theorem wait_for_ready_exactly_matching_services_witness :
    (∃ st2, wait_for_ready witnessSnaps witnessOrch 2 =
      (st2, .ok ((witnessOrch.services.filter (fun p => truthy p.2.ready_pattern &&
          waitLoop (witnessSnaps p.1) (p.2.ready_pattern.getD "") (pollCount 2 (2⁻¹ : ℚ)))).map
        Prod.fst))) ∧
    (∀ p ∈ witnessOrch.services, truthy p.2.ready_pattern = false →
      p.1 ∉ ((witnessOrch.services.filter (fun p => truthy p.2.ready_pattern &&
          waitLoop (witnessSnaps p.1) (p.2.ready_pattern.getD "") (pollCount 2 (2⁻¹ : ℚ)))).map
        Prod.fst)) :=
  wait_for_ready_exactly_matching_services witnessSnaps witnessOrch 2
    (by intro p hp; fin_cases hp <;> simp [witnessOrch])
    (by simp [witnessOrch])

theorem foldl_append_filter (q : String → Bool) :
    ∀ (lines acc : List String),
      lines.foldl (fun acc2 line => if q line then acc2 ++ [line] else acc2) acc =
        acc ++ lines.filter q := by
  intro lines
  induction lines with
  | nil => intro acc; simp
  | cons hd tl ih =>
    intro acc
    cases hq : q hd with
    | true => simp [List.foldl_cons, hq, ih, List.filter_cons]
    | false => simp [List.foldl_cons, hq, ih, List.filter_cons]

theorem matchLines_eq_flatMap (pats lines : List String) :
    matchLines pats lines =
      pats.flatMap (fun p => lines.filter (fun line => regexSearchCI p line)) := by
  rw [matchLines]
  suffices h : ∀ (ps : List String) (acc : List String),
      ps.foldl (fun acc p =>
        lines.foldl (fun acc2 line => if regexSearchCI p line then acc2 ++ [line] else acc2) acc)
        acc =
      acc ++ ps.flatMap (fun p => lines.filter (fun line => regexSearchCI p line)) by
    simpa using h pats []
  intro ps
  induction ps with
  | nil => intro acc; simp
  | cons p rest ih =>
    intro acc
    rw [List.foldl_cons, foldl_append_filter, ih, List.flatMap_cons, List.append_assoc]

theorem count_filter_self (q : String → Bool) (lines : List String) (v : String) :
    (lines.filter q).count v = if q v then lines.count v else 0 := by
  cases hq : q v with
  | true => simp [List.count_filter, hq]
  | false =>
    rw [if_neg (by simp [hq])]
    rw [List.count_eq_zero]
    intro hmem
    have := (List.mem_filter.mp hmem).2
    rw [hq] at this
    cases this

/-- The lines `monitor_logs` scans for one registered service: the text of
`capture_output(name, lines=100)` split on newlines. -/
def serviceCaptureLines (env : PaneEnv) (sess : SessionState) (n : String) : List String :=
  (String.intercalate "\n"
    (capturePaneCmd (env ((alookup sess.windows n).getD "")) 100)).splitOn "\n"

theorem monitorGo_ok (env : PaneEnv) (sess : SessionState) (pats : List String) :
    ∀ svcs : List (String × Service),
      (∀ p ∈ svcs, p.1 ∈ sess.windows.map Prod.fst) →
      monitorGo env sess pats svcs =
        .ok (svcs.map (fun p => (p.1, matchLines pats (serviceCaptureLines env sess p.1)))) := by
  intro svcs
  induction svcs with
  | nil => intro _; rfl
  | cons hd rest ih =>
    obtain ⟨n, svc⟩ := hd
    intro hreg
    obtain ⟨wid, hwid⟩ :=
      alookup_isSome_of_mem n sess.windows (hreg (n, svc) (List.mem_cons_self _ _))
    have hcap : capture_output env sess n 100 =
        .ok (String.intercalate "\n" (capturePaneCmd (env wid) 100)) := by
      simp [capture_output, hwid]
    have hrest : ∀ p ∈ rest, p.1 ∈ sess.windows.map Prod.fst :=
      fun p hp => hreg p (List.mem_cons_of_mem _ hp)
    simp only [monitorGo]
    rw [hcap, ih hrest]
    simp [serviceCaptureLines, hwid]

/-- C10: `monitor_logs` yields, for every service (window registered, as the
orchestrator guarantees), the scan of its last-100-line capture; the scan is
the pattern-major concatenation of the per-pattern filtered lines — so the
result is ordered by pattern first and by line position second, not by
output order — and each line value occurs once per matching pattern times
its multiplicity among the captured lines. -/
theorem monitor_logs_per_pattern_occurrences :
    (∀ (env : PaneEnv) (st : OrchState) (patterns : Option (List String)),
      (∀ p ∈ st.services, p.1 ∈ st.session.windows.map Prod.fst) →
      monitor_logs env st patterns =
        .ok (st.services.map (fun p =>
          (p.1, matchLines (patterns.getD defaultPatterns)
            (serviceCaptureLines env st.session p.1))))) ∧
    (∀ pats lines : List String,
      matchLines pats lines =
        pats.flatMap (fun p => lines.filter (fun line => regexSearchCI p line))) ∧
    (∀ (pats lines : List String) (v : String),
      (matchLines pats lines).count v =
        (pats.filter (fun p => regexSearchCI p v)).length * lines.count v) := by
  refine ⟨?_, matchLines_eq_flatMap, ?_⟩
  · intro env st patterns hreg
    exact monitorGo_ok env st.session (patterns.getD defaultPatterns) st.services hreg
  · intro pats lines v
    rw [matchLines_eq_flatMap]
    induction pats with
    | nil => simp
    | cons p rest ih =>
      rw [List.flatMap_cons, List.count_append, ih, count_filter_self, List.filter_cons]
      cases hq : regexSearchCI p v with
      | true =>
        simp only [hq, if_true, List.length_cons]
        ring
      | false => simp [hq]

/-- C10 witness: scanning the three-service registry with the default
patterns produces the per-service pattern-major scan; instantiating the
shape and count parts on a small concrete capture. -/
theorem monitor_logs_per_pattern_occurrences_witness :
    monitor_logs fiveLinePanes witnessOrch none =
      .ok (witnessOrch.services.map (fun p =>
        (p.1, matchLines (Option.getD none defaultPatterns)
          (serviceCaptureLines fiveLinePanes witnessOrch.session p.1)))) ∧
    matchLines ["ERROR", "disk"] ["ERROR: disk full", "ok"] =
      ["ERROR", "disk"].flatMap
        (fun p => ["ERROR: disk full", "ok"].filter (fun line => regexSearchCI p line)) ∧
    (matchLines ["ERROR", "disk"] ["ERROR: disk full", "ok"]).count "ERROR: disk full" =
      (["ERROR", "disk"].filter
          (fun p => regexSearchCI p "ERROR: disk full")).length *
        (["ERROR: disk full", "ok"].count "ERROR: disk full") :=
  ⟨monitor_logs_per_pattern_occurrences.1 fiveLinePanes witnessOrch none
      (by intro p hp; fin_cases hp <;> simp [witnessOrch]),
   monitor_logs_per_pattern_occurrences.2.1 ["ERROR", "disk"] ["ERROR: disk full", "ok"],
   monitor_logs_per_pattern_occurrences.2.2 ["ERROR", "disk"] ["ERROR: disk full", "ok"]
     "ERROR: disk full"⟩

/-! ## Orchestrator operations as a transition system (for the readiness
flag invariant) -/

/-- One public orchestrator operation, carrying the environment it needs:
the pane-query answer for a registration, the capture traces for a readiness
wait.  `monitorLogs` reads output but never writes orchestrator state. -/
inductive Op where
  | addService (env : TmuxEnv) (name command : String)
      (working_dir ready_pattern : Option String)
  | startAll (stagger : ℚ)
  | waitForReady (snaps : String → ℕ → String) (timeout_per_service : ℤ)
  | monitorLogs (patterns : Option (List String))
  | shutdownAll (graceful : Bool)

/-- Whether an operation is a (re-)registration of the service name `n`. -/
def opAddsName (n : String) : Op → Bool
  | .addService _ m _ _ _ => m == n
  | _ => false

/-- State effect of one orchestrator operation; a raised exception leaves
the state as the corresponding method left it. -/
def applyOp (op : Op) (st : OrchState) : OrchState :=
  match op with
  | .addService env name command wd rp => (add_service env st name command wd rp).1
  | .startAll stagger => start_all st stagger
  | .waitForReady snaps t => (wait_for_ready snaps st t).1
  | .monitorLogs _ => st
  | .shutdownAll graceful => (shutdown_all st graceful).1

/-- State after a whole sequence of orchestrator operations. -/
def applyOps (ops : List Op) (st : OrchState) : OrchState :=
  ops.foldl (fun s op => applyOp op s) st

theorem waitReadyGo_ready_monotone (sess : SessionState) (snaps : String → ℕ → String)
    (t : ℤ) (n : String) :
    ∀ (svcs : List (String × Service)) (svc : Service),
      alookup svcs n = some svc → svc.ready = true →
      ∃ svc2, alookup (waitReadyGo sess snaps t svcs).1 n = some svc2 ∧ svc2.ready = true := by
  intro svcs
  induction svcs with
  | nil => intro svc h _; cases h
  | cons hd rest ih =>
    obtain ⟨m, s0⟩ := hd
    intro svc hlk hready
    by_cases htru : truthy s0.ready_pattern = true
    · cases hwp : wait_for_pattern sess (snaps m) m (s0.ready_pattern.getD "") t (2⁻¹ : ℚ) with
      | error e =>
        simp only [waitReadyGo]
        rw [if_pos htru, hwp]
        exact ⟨svc, hlk, hready⟩
      | ok b =>
        cases b with
        | true =>
          simp only [waitReadyGo]
          rw [if_pos htru, hwp]
          by_cases hm : m = n
          · refine ⟨{ s0 with ready := true }, ?_, rfl⟩
            simp [alookup, hm]
          · simp only [alookup] at hlk
            rw [if_neg hm] at hlk
            obtain ⟨svc2, h2, hr2⟩ := ih svc hlk hready
            refine ⟨svc2, ?_, hr2⟩
            simp only [alookup]
            rw [if_neg hm]
            exact h2
        | false =>
          simp only [waitReadyGo]
          rw [if_pos htru, hwp]
          by_cases hm : m = n
          · refine ⟨s0, by simp [alookup, hm], ?_⟩
            simp only [alookup] at hlk
            rw [if_pos hm] at hlk
            cases hlk
            exact hready
          · simp only [alookup] at hlk
            rw [if_neg hm] at hlk
            obtain ⟨svc2, h2, hr2⟩ := ih svc hlk hready
            refine ⟨svc2, ?_, hr2⟩
            simp only [alookup]
            rw [if_neg hm]
            exact h2
    · simp only [waitReadyGo]
      rw [if_neg htru]
      by_cases hm : m = n
      · refine ⟨s0, by simp [alookup, hm], ?_⟩
        simp only [alookup] at hlk
        rw [if_pos hm] at hlk
        cases hlk
        exact hready
      · simp only [alookup] at hlk
        rw [if_neg hm] at hlk
        obtain ⟨svc2, h2, hr2⟩ := ih svc hlk hready
        refine ⟨svc2, ?_, hr2⟩
        simp only [alookup]
        rw [if_neg hm]
        exact h2

theorem shutdown_all_services_unchanged (st : OrchState) (graceful : Bool) :
    (shutdown_all st graceful).1.services = st.services := by
  rw [shutdown_all]
  cases graceful with
  | false => simp
  | true =>
    simp only [if_true]
    cases hsi : sendInterrupts st.session st.services with
    | some e => rfl
    | none => rfl

theorem applyOp_ready_monotone (op : Op) (n : String) (hop : opAddsName n op = false) :
    ∀ (st : OrchState) (svc : Service),
      alookup st.services n = some svc → svc.ready = true →
      ∃ svc2, alookup (applyOp op st).services n = some svc2 ∧ svc2.ready = true := by
  intro st svc hlk hready
  cases op with
  | addService env m command wd rp =>
    have hmn : m ≠ n := by
      simp only [opAddsName] at hop
      exact fun he => by rw [he] at hop; simp at hop
    simp only [applyOp, add_service]
    cases haw : add_window env st.session m command false "vertical" wd with
    | mk sess2 rest2 =>
      obtain ⟨trace, res⟩ := rest2
      cases res with
      | ok wid =>
        refine ⟨svc, ?_, hready⟩
        simpa [alookup_dictInsert_ne st.services m n _ hmn] using hlk
      | error e => exact ⟨svc, hlk, hready⟩
  | startAll stagger => exact ⟨svc, hlk, hready⟩
  | waitForReady snaps t =>
    simp only [applyOp, wait_for_ready]
    exact waitReadyGo_ready_monotone st.session snaps t n st.services svc hlk hready
  | monitorLogs patterns => exact ⟨svc, hlk, hready⟩
  | shutdownAll graceful =>
    refine ⟨svc, ?_, hready⟩
    rw [applyOp, shutdown_all_services_unchanged]
    exact hlk

/-- C9: the readiness flag of a service starts out `False` when its
registration succeeds, and across every sequence of orchestrator operations
that does not re-register that service name (which would create a fresh
service in its place), a flag that has become `True` stays `True` — it never
transitions back.  Together with the flag being a boolean this gives the
claimed at-most-one `False` to `True` transition per registered service. -/
theorem service_ready_flag_monotone :
    (∀ (env : TmuxEnv) (st : OrchState) (name command : String)
        (wd rp : Option String),
      (add_service env st name command wd rp).2.2 = .ok () →
      ∃ svc, alookup (add_service env st name command wd rp).1.services name = some svc ∧
        svc.ready = false) ∧
    (∀ (ops : List Op) (n : String), (∀ op ∈ ops, opAddsName n op = false) →
      ∀ (st : OrchState) (svc : Service),
        alookup st.services n = some svc → svc.ready = true →
        ∃ svc2, alookup (applyOps ops st).services n = some svc2 ∧ svc2.ready = true) := by
  constructor
  · intro env st name command wd rp hok
    simp only [add_service] at hok ⊢
    cases haw : add_window env st.session name command false "vertical" wd with
    | mk sess2 rest2 =>
      obtain ⟨trace, res⟩ := rest2
      cases res with
      | ok wid =>
        exact ⟨_, alookup_dictInsert_self st.services name _, rfl⟩
      | error e =>
        rw [haw] at hok
        exact Except.noConfusion hok
  · intro ops
    induction ops with
    | nil => intro n _ st svc hlk hready; exact ⟨svc, hlk, hready⟩
    | cons op rest ih =>
      intro n hops st svc hlk hready
      obtain ⟨svc2, h2, hr2⟩ :=
        applyOp_ready_monotone op n (hops op (List.mem_cons_self _ _)) st svc hlk hready
      exact ih n (fun o ho => hops o (List.mem_cons_of_mem _ ho)) (applyOp op st) svc2 h2 hr2

/-- C9 witness: registering `api` on a fresh one-window session records its
flag as `False`, and a ready (`True`) flag survives a pacing `start_all`, a
log scan and a graceful shutdown. -/
theorem service_ready_flag_monotone_witness :
    (∃ svc, alookup (add_service ⟨""⟩ ⟨demoSession, []⟩ "api" "run-api" none
        (some "READY")).1.services "api" = some svc ∧ svc.ready = false) ∧
    (∃ svc2, alookup (applyOps [Op.startAll 1, Op.monitorLogs none, Op.shutdownAll true]
        ⟨demoSession, [("api", ⟨"run-api", "s:api", some "READY", true⟩)]⟩).services "api" =
          some svc2 ∧ svc2.ready = true) :=
  ⟨service_ready_flag_monotone.1 ⟨""⟩ ⟨demoSession, []⟩ "api" "run-api" none
      (some "READY") rfl,
   service_ready_flag_monotone.2 [Op.startAll 1, Op.monitorLogs none, Op.shutdownAll true]
      "api" (by intro op hop; fin_cases hop <;> rfl)
      ⟨demoSession, [("api", ⟨"run-api", "s:api", some "READY", true⟩)]⟩
      ⟨"run-api", "s:api", some "READY", true⟩ (by simp [alookup]) rfl⟩

end MultiTerminal
